import Mathlib

set_option linter.unusedVariables false
set_option maxRecDepth 4000

/-!
# Verification of the rqlite WAL-checkpoint / provider / membership / sink subsystem

Shallow embedding of the subsystem described in `spec.md` and exercised by the
repository's tests.  The `Provider` retry loop is embedded directly from
`store/provider.go`.  The WAL database handle, the `Servers` membership
helpers and the snapshot `Sink` are visible in the repository only through
their tests, so those components are modelled from the spec (each such
definition says so in its doc comment).
-/

namespace Rqlite

/-! ## WAL database model -/

/-- Checkpoint mode, per the spec's enumeration: Passive, Full, Restart, Truncate. -/
inductive CheckpointMode where
  | passive
  | full
  | restart
  | truncate
deriving DecidableEq, Repr

/-- Result of a single checkpoint attempt: success, or a busy error because a
reader held an incompatible lock. -/
inductive CheckpointResult where
  | ok
  | busy
deriving DecidableEq, Repr

/-- Modelled from the spec: the state of a database handle.  `walEnabled` is the
wal-mode flag; `walFile` is `none` when `P-wal` does not exist and `some bs`
when it exists with byte content `bs`; `pendingFrames` counts WAL frames not
yet migrated; `rows` is the logical content of the database (what queries
observe). -/
structure DBState where
  walEnabled : Bool
  walFile : Option (List Nat)
  pendingFrames : Nat
  rows : List (List Nat)
deriving DecidableEq, Repr

/-- Modelled from the spec: `Open(path, readOnly, walMode)` yields a handle whose
wal-enabled flag is `walMode`; a WAL file appears only after the first
modifying statement, so a fresh handle has no WAL file. -/
def Open (walMode : Bool) : DBState :=
  { walEnabled := walMode, walFile := none, pendingFrames := 0, rows := [] }

/-- Modelled from the spec: a mutating statement appends a row to the logical
content and, in WAL mode, appends frames to the WAL file (creating it on the
first write). -/
def ExecuteInsert (row : List Nat) (s : DBState) : DBState :=
  if s.walEnabled then
    { s with rows := s.rows ++ [row],
             walFile := some (s.walFile.getD [] ++ row),
             pendingFrames := s.pendingFrames + 1 }
  else
    { s with rows := s.rows ++ [row] }

/-- `SELECT COUNT(*)`: a query, as a function of the logical content only. -/
def QueryCount (s : DBState) : Nat := s.rows.length

/-- Size of the WAL file; an absent file has size 0 (and `fileSize` errors,
which the tests treat separately). -/
def walSize : Option (List Nat) → Nat
  | none => 0
  | some bs => bs.length

/-- Modelled from the spec: a single-shot checkpoint tagged with a mode.
When wal mode is off it succeeds immediately without touching disk; when the
WAL file does not exist it succeeds as a no-op; when the file exists and a
reader holds an incompatible lock, Restart and Truncate return busy (Passive
never does) and the state is untouched; on success all frames are migrated,
Restart leaves the WAL bytes unchanged and Truncate truncates the WAL to zero
length.  `readers` is the number of concurrent open read transactions held by
other handles on the same path. -/
def Checkpoint (mode : CheckpointMode) (readers : Nat) (s : DBState) :
    CheckpointResult × DBState :=
  if s.walEnabled = false then (.ok, s)
  else
    match s.walFile with
    | none => (.ok, s)
    | some bs =>
      if 0 < readers ∧ (mode = .restart ∨ mode = .truncate) then (.busy, s)
      else
        match mode with
        | .truncate => (.ok, { s with walFile := some [], pendingFrames := 0 })
        | _ => (.ok, { s with walFile := some bs, pendingFrames := 0 })

/-- Modelled from the spec: the bounded-time wrapper retries the engine's
checkpoint attempt until it reports ok or the deadline passes.  `readerAt t`
gives the number of concurrent open read transactions at retry tick `t`;
`fuel` is the number of retry ticks remaining before the deadline.  On
timeout the result is busy and the state is exactly the entry state. -/
def CheckpointWithTimeoutAux (mode : CheckpointMode) (readerAt : Nat → Nat)
    (s : DBState) : Nat → Nat → CheckpointResult × DBState
  | t, 0 =>
    let r := Checkpoint mode (readerAt t) s
    if r.1 = .ok then r else (.busy, s)
  | t, fuel+1 =>
    let r := Checkpoint mode (readerAt t) s
    if r.1 = .ok then r else CheckpointWithTimeoutAux mode readerAt s (t+1) fuel

/-- Modelled from the spec: `CheckpointWithTimeout(mode, d)` with `d` measured
in retry ticks. -/
def CheckpointWithTimeout (mode : CheckpointMode) (d : Nat) (readerAt : Nat → Nat)
    (s : DBState) : CheckpointResult × DBState :=
  CheckpointWithTimeoutAux mode readerAt s 0 d

/-- Iterated inserts: `insertN n s` performs `n` single-row inserts. -/
def insertN : Nat → DBState → DBState
  | 0, s => s
  | n+1, s => insertN n (ExecuteInsert [1] s)

/-! ## Provider (embedded from `store/provider.go`) -/

/-- The observable behaviour of `p.str.Backup(br, w)` across successive
attempts: `backup i` is the pair of the bytes attempt `i` writes to the
writer `w` and `none` on success or `some e` on failure with error `e`. -/
abbrev BackupBehavior := Nat → List Nat × Option String

/-- `Provider` from `store/provider.go`: the store handle is abstracted to the
behaviour of its `Backup` and the result of `str.db.LastModified()`. -/
structure Provider where
  vacuum : Bool
  nRetries : Nat
  retryInterval : Nat
  lastModified : Except String Nat
deriving Repr

/-- `NewProvider` from `store/provider.go`: fixes the retry policy defaults,
10 retries at a 500 ms interval. -/
def NewProvider (v : Bool) (lm : Except String Nat) : Provider :=
  { vacuum := v, nRetries := 10, retryInterval := 500, lastModified := lm }

/-- The retry loop of `Provider.provide` from `store/provider.go`.  `buf` is
the content accumulated in the writer so far, `i` the index of the next
`Backup` attempt, and `fuel` the number of retries still allowed (the Go loop
counts `nRetries` up and returns the current error once it exceeds
`p.nRetries`; here `fuel` counts the same budget down, starting from
`p.nRetries`).  `time.Sleep(p.retryInterval)` has no observable effect in this
model.  Returns the result of the call and the final writer content. -/
def provideAux (p : Provider) (backup : BackupBehavior) :
    List Nat → Nat → Nat → Except String Nat × List Nat
  | buf, i, 0 =>
    match backup i with
    | (bs, none) => (p.lastModified, buf ++ bs)
    | (bs, some e) => (.error e, buf ++ bs)
  | buf, i, fuel+1 =>
    match backup i with
    | (bs, none) => (p.lastModified, buf ++ bs)
    | (bs, some _) => provideAux p backup (buf ++ bs) (i+1) fuel

/-- `Provider.Provide` from `store/provider.go`: `os.Create(path)` truncates
the file (so the writer starts empty whatever `prior` content the path held),
then `provide(fd)` runs the retry loop; `fd.Close()` is deferred on every
path.  Returns the result and the final content of `path`. -/
def Provide (p : Provider) (prior : List Nat) (backup : BackupBehavior) :
    Except String Nat × List Nat :=
  provideAux p backup [] 0 p.nRetries

/-! ## Servers membership model -/

/-- A membership record: opaque ID, network address, suffrage tag. -/
structure Server where
  ID : String
  Addr : String
  Suffrage : String
deriving DecidableEq, Repr

/-- A Go `[]*Server`: `none` models a nil entry. -/
abbrev Servers := List (Option Server)

/-- The scan inside `Contains`: inspecting a nil entry dereferences a nil
pointer, modelled as `Except.error`. -/
def containsScan : Servers → String → Except String Bool
  | [], _ => .ok false
  | none :: _, _ => .error "nil pointer dereference"
  | some srv :: rest, nodeID =>
    if srv.ID = nodeID then .ok true else containsScan rest nodeID

/-- Modelled from the spec: `Contains(id)` is an O(n) scan, with the empty id
always answered `false` before the scan runs. -/
def Contains (s : Servers) (nodeID : String) : Except String Bool :=
  if nodeID = "" then .ok false else containsScan s nodeID

/-- The scan inside `IsReadOnly`. -/
def isReadOnlyScan : Servers → String → Except String (Bool × Bool)
  | [], _ => .ok (false, false)
  | none :: _, _ => .error "nil pointer dereference"
  | some srv :: rest, nodeID =>
    if srv.ID = nodeID then .ok (decide (srv.Suffrage = "Nonvoter"), true)
    else isReadOnlyScan rest nodeID

/-- Modelled from the spec: `IsReadOnly(id) → (ro, found)` scans the sequence;
`found` is false if the id is empty (answered before the scan) or absent, and
`ro` is true iff `found` and the suffrage of the matching server is
Nonvoter. -/
def IsReadOnly (s : Servers) (nodeID : String) : Except String (Bool × Bool) :=
  if nodeID = "" then .ok (false, false) else isReadOnlyScan s nodeID

/-- The first server of the sequence whose ID matches: the server a scan
finds. -/
def firstMatch : Servers → String → Option Server
  | [], _ => none
  | none :: rest, nodeID => firstMatch rest nodeID
  | some srv :: rest, nodeID =>
    if srv.ID = nodeID then some srv else firstMatch rest nodeID

/-- The canonical order on membership records: ascending by ID, lexicographic
on the opaque ID string. -/
def serverLE (a b : Server) : Prop := a.ID ≤ b.ID

instance : DecidableRel serverLE :=
  fun a b => inferInstanceAs (Decidable (a.ID ≤ b.ID))

instance : IsTotal Server serverLE := ⟨fun a b => le_total a.ID b.ID⟩

instance : IsTrans Server serverLE := ⟨fun _ _ _ hab hbc => le_trans hab hbc⟩

/-- Modelled from the spec: canonicalizing a `Servers` sequence sorts it
ascending by ID. -/
def canonicalize (l : List Server) : List Server := List.insertionSort serverLE l

/-! ## Snapshot sink model -/

/-- A model filesystem: the set of directories and the files with their
content. -/
structure FS where
  dirs : List String
  files : List (String × List Nat)
deriving DecidableEq, Repr

/-- Opaque snapshot metadata; the sink treats it as a blob. -/
structure Meta where
  blob : List Nat
deriving DecidableEq, Repr

/-- The sink as returned by `NewSink(workDir, currGenDir, nextGenDir, meta)`. -/
structure Sink where
  workDir : String
  currGenDir : String
  nextGenDir : String
  meta : Meta
deriving DecidableEq, Repr

/-- `NewSink` just records its arguments. -/
def NewSink (work curr next : String) (m : Meta) : Sink :=
  { workDir := work, currGenDir := curr, nextGenDir := next, meta := m }

/-- The staging file the sink prepares, named by convention under the work
directory. -/
def stagingPath (s : Sink) : String := s.workDir ++ "/snapshot.tmp"

/-- Modelled from the spec: `Sink.Open` validates that the work directory
exists (creating it if not) and that the current- and next-generation paths
are addressable, then creates an empty staging file under the work
directory. -/
def SinkOpen (s : Sink) (fs : FS) : Except String FS :=
  if s.workDir = "" ∨ s.currGenDir = "" ∨ s.nextGenDir = "" then
    .error "path not addressable"
  else
    let fs1 := if s.workDir ∈ fs.dirs then fs else { fs with dirs := s.workDir :: fs.dirs }
    .ok { fs1 with files := (stagingPath s, []) :: fs1.files }

/-! ## Helper lemmas: WAL checkpoint model -/

/-- A single checkpoint attempt in Restart or Truncate mode reports busy and
leaves the state untouched while a reader holds a lock and the WAL file
exists. -/
theorem Checkpoint_busy_of_reader (s : DBState) (bs : List Nat) (m : CheckpointMode)
    (r : Nat) (hwal : s.walEnabled = true) (hfile : s.walFile = some bs)
    (hr : 0 < r) (hm : m = .restart ∨ m = .truncate) :
    Checkpoint m r s = (.busy, s) := by
  rcases hm with rfl | rfl <;> simp [Checkpoint, hwal, hfile, hr]

/-- The bounded-time wrapper reports busy, with the entry state untouched,
when every attempt up to the deadline is blocked by a reader. -/
theorem CheckpointWithTimeoutAux_busy (s : DBState) (bs : List Nat)
    (m : CheckpointMode) (readerAt : Nat → Nat)
    (hwal : s.walEnabled = true) (hfile : s.walFile = some bs)
    (hreader : ∀ t, 0 < readerAt t) (hm : m = .restart ∨ m = .truncate) :
    ∀ d t, CheckpointWithTimeoutAux m readerAt s t d = (.busy, s) := by
  intro d
  induction d with
  | zero =>
    intro t
    simp [CheckpointWithTimeoutAux,
      Checkpoint_busy_of_reader s bs m (readerAt t) hwal hfile (hreader t) hm]
  | succ n ih =>
    intro t
    simp [CheckpointWithTimeoutAux,
      Checkpoint_busy_of_reader s bs m (readerAt t) hwal hfile (hreader t) hm, ih]

/-- C1: For every handle in WAL mode with pending WAL frames, while another
handle on the same path holds an open read transaction throughout the call,
`CheckpointWithTimeout(mode, d)` for mode Restart or Truncate returns the
busy/timeout error and the final state is exactly the entry state: the WAL
bytes equal their value at call entry, and no file is created or removed. -/
theorem checkpointWithTimeout_busy_leaves_wal_unchanged
    (s : DBState) (bs : List Nat) (m : CheckpointMode) (d : Nat)
    (readerAt : Nat → Nat)
    (hwal : s.walEnabled = true) (hfile : s.walFile = some bs)
    (hpend : 0 < s.pendingFrames) (hreader : ∀ t, 0 < readerAt t)
    (hm : m = .restart ∨ m = .truncate) :
    CheckpointWithTimeout m d readerAt s = (.busy, s) :=
  CheckpointWithTimeoutAux_busy s bs m readerAt hwal hfile hreader hm d 0

/-- Witness for C1 at a concrete state: one insert on a fresh WAL-mode handle,
one blocking reader, Restart mode, a 3-tick deadline. -/
theorem checkpointWithTimeout_busy_leaves_wal_unchanged_witness :
    CheckpointWithTimeout .restart 3 (fun _ => 1) (ExecuteInsert [1] (Open true))
      = (.busy, ExecuteInsert [1] (Open true)) :=
  checkpointWithTimeout_busy_leaves_wal_unchanged
    (ExecuteInsert [1] (Open true)) [1] .restart 3 (fun _ => 1)
    (by decide) (by decide) (by decide) (fun _ => Nat.one_pos) (Or.inl rfl)

/-- C2: On a quiesced database (no readers) in WAL mode, `Checkpoint(Restart)`
succeeds and the WAL file bytes are unchanged from their pre-call value. -/
theorem checkpoint_restart_preserves_wal (s : DBState)
    (hwal : s.walEnabled = true) :
    (Checkpoint .restart 0 s).1 = .ok
      ∧ (Checkpoint .restart 0 s).2.walFile = s.walFile := by
  rcases hfile : s.walFile with _ | bs <;> simp [Checkpoint, hwal, hfile]

/-- Witness for C2 at the test's concrete state: 50 inserts on a fresh
WAL-mode handle. -/
theorem checkpoint_restart_preserves_wal_witness :
    (Checkpoint .restart 0 (insertN 50 (Open true))).1 = .ok
      ∧ (Checkpoint .restart 0 (insertN 50 (Open true))).2.walFile
          = (insertN 50 (Open true)).walFile :=
  checkpoint_restart_preserves_wal (insertN 50 (Open true)) (by decide)

/-- C3: On a quiesced database (no readers) in WAL mode, `Checkpoint(Truncate)`
succeeds, the WAL file has size exactly zero afterwards, and the logical
content is preserved, so every query — `SELECT COUNT(*)` included — returns
the same result as before the checkpoint. -/
theorem checkpoint_truncate_zeroes_wal_preserves_queries (s : DBState)
    (hwal : s.walEnabled = true) :
    (Checkpoint .truncate 0 s).1 = .ok
      ∧ walSize (Checkpoint .truncate 0 s).2.walFile = 0
      ∧ (Checkpoint .truncate 0 s).2.rows = s.rows
      ∧ QueryCount (Checkpoint .truncate 0 s).2 = QueryCount s := by
  rcases hfile : s.walFile with _ | bs <;>
    simp [Checkpoint, hwal, hfile, walSize, QueryCount]

/-- Witness for C3 at the test's concrete state: 50 inserts, then Truncate;
the count query still answers 50. -/
theorem checkpoint_truncate_zeroes_wal_preserves_queries_witness :
    QueryCount (insertN 50 (Open true)) = 50
      ∧ ((Checkpoint .truncate 0 (insertN 50 (Open true))).1 = .ok
          ∧ walSize (Checkpoint .truncate 0 (insertN 50 (Open true))).2.walFile = 0
          ∧ (Checkpoint .truncate 0 (insertN 50 (Open true))).2.rows
              = (insertN 50 (Open true)).rows
          ∧ QueryCount (Checkpoint .truncate 0 (insertN 50 (Open true))).2
              = QueryCount (insertN 50 (Open true))) :=
  ⟨by decide,
   checkpoint_truncate_zeroes_wal_preserves_queries (insertN 50 (Open true)) (by decide)⟩

/-- C6: A fresh handle has no WAL file whatever the mode flag, and on any
state whose WAL file is absent — a handle opened with walMode=false, or one
opened in WAL mode before any mutating statement — `Checkpoint(m)` succeeds
for every mode `m` (Truncate included) and leaves the state untouched, so no
WAL file is left behind. -/
theorem checkpoint_no_wal_is_noop_success :
    (∀ wm, (Open wm).walFile = none ∧ (Open wm).walEnabled = wm)
      ∧ ∀ (s : DBState) (m : CheckpointMode) (r : Nat),
          s.walFile = none → Checkpoint m r s = (.ok, s) := by
  refine ⟨fun wm => ⟨rfl, rfl⟩, fun s m r h => ?_⟩
  rcases hwe : s.walEnabled <;> simp [Checkpoint, h, hwe]

/-- Witness for C6: Truncate on a fresh WAL-mode handle and on a fresh
DELETE-mode handle both succeed and leave no WAL file. -/
theorem checkpoint_no_wal_is_noop_success_witness :
    Checkpoint .truncate 0 (Open true) = (.ok, Open true)
      ∧ Checkpoint .truncate 0 (Open false) = (.ok, Open false) :=
  ⟨checkpoint_no_wal_is_noop_success.2 (Open true) .truncate 0 rfl,
   checkpoint_no_wal_is_noop_success.2 (Open false) .truncate 0 rfl⟩

/-! ## Helper lemmas: Provider retry loop -/

/-- Bytes written to the writer by attempts `i, i+1, …, i+k`. -/
def writesFrom (backup : BackupBehavior) : Nat → Nat → List Nat
  | i, 0 => (backup i).1
  | i, k+1 => (backup i).1 ++ writesFrom backup (i+1) k

/-- When the first `k` attempts fail and attempt `k` succeeds within the
remaining budget, the loop returns `LastModified` and the writer holds the
bytes of every attempt through the successful one. -/
theorem provideAux_success (p : Provider) (backup : BackupBehavior) :
    ∀ k fuel i buf, k ≤ fuel →
      (∀ j, j < k → (backup (i+j)).2 ≠ none) →
      (backup (i+k)).2 = none →
      provideAux p backup buf i fuel
        = (p.lastModified, buf ++ writesFrom backup i k) := by
  intro k
  induction k with
  | zero =>
    intro fuel i buf _ _ hsucc
    rcases hb : backup i with ⟨bs, res⟩
    have hres : res = none := by
      have h0 : (backup (i+0)).2 = none := hsucc
      rw [Nat.add_zero, hb] at h0
      exact h0
    subst hres
    cases fuel <;> simp [provideAux, hb, writesFrom]
  | succ k ih =>
    intro fuel i buf hk hfail hsucc
    cases fuel with
    | zero => omega
    | succ fuel =>
      rcases hb : backup i with ⟨bs, res⟩
      have hres : res ≠ none := by
        have h0 := hfail 0 (Nat.succ_pos k)
        rw [Nat.add_zero, hb] at h0
        exact h0
      rcases res with _ | e
      · exact absurd rfl hres
      · have hrec := ih fuel (i+1) (buf ++ bs) (Nat.lt_succ_iff.mp hk)
          (fun j hj => by
            have h1 := hfail (j+1) (Nat.succ_lt_succ hj)
            rwa [show i + (j+1) = i + 1 + j by omega] at h1)
          (by rwa [show i + 1 + k = i + (k+1) by omega])
        simp only [provideAux, hb, hrec, writesFrom]
        rw [List.append_assoc]

/-- When attempts `i, …, i+fuel` all fail, the loop exhausts its budget and
returns the error of the last attempt made, the writer holding the bytes of
every attempt. -/
theorem provideAux_fail (p : Provider) (backup : BackupBehavior) :
    ∀ fuel i buf e,
      (∀ j, j < fuel → (backup (i+j)).2 ≠ none) →
      (backup (i+fuel)).2 = some e →
      provideAux p backup buf i fuel
        = (.error e, buf ++ writesFrom backup i fuel) := by
  intro fuel
  induction fuel with
  | zero =>
    intro i buf e _ hlast
    rcases hb : backup i with ⟨bs, res⟩
    have hres : res = some e := by
      have h0 : (backup (i+0)).2 = some e := hlast
      rw [Nat.add_zero, hb] at h0
      exact h0
    subst hres
    simp [provideAux, hb, writesFrom]
  | succ fuel ih =>
    intro i buf e hfail hlast
    rcases hb : backup i with ⟨bs, res⟩
    have hres : res ≠ none := by
      have h0 := hfail 0 (Nat.succ_pos fuel)
      rw [Nat.add_zero, hb] at h0
      exact h0
    rcases res with _ | e0
    · exact absurd rfl hres
    · have hrec := ih (i+1) (buf ++ bs) e
        (fun j hj => by
          have h1 := hfail (j+1) (Nat.succ_lt_succ hj)
          rwa [show i + (j+1) = i + 1 + j by omega] at h1)
        (by rwa [show i + 1 + fuel = i + (fuel+1) by omega])
      simp only [provideAux, hb, hrec, writesFrom]
      rw [List.append_assoc]

/-- C4: `NewProvider` fixes the defaults of 10 retries at a 500 ms interval;
when the first `nRetries` attempts all fail and the next one fails too, the
call surfaces that last attempt's error verbatim (so `Backup` is retried
`nRetries` times after the initial attempt); and when an attempt within the
retry budget succeeds, the call returns the source's `LastModified` result. -/
theorem provide_retries_then_surfaces_last_error
    (v : Bool) (lm : Except String Nat) (p : Provider) (prior : List Nat)
    (backup : BackupBehavior) :
    ((NewProvider v lm).nRetries = 10 ∧ (NewProvider v lm).retryInterval = 500
        ∧ (NewProvider v lm).lastModified = lm)
      ∧ (∀ e, (∀ j, j < p.nRetries → (backup j).2 ≠ none) →
          (backup p.nRetries).2 = some e →
          (Provide p prior backup).1 = .error e)
      ∧ (∀ k, k ≤ p.nRetries → (∀ j, j < k → (backup j).2 ≠ none) →
          (backup k).2 = none →
          (Provide p prior backup).1 = p.lastModified) := by
  refine ⟨⟨rfl, rfl, rfl⟩, fun e hfail hlast => ?_, fun k hk hfail hsucc => ?_⟩
  · rw [Provide, provideAux_fail p backup p.nRetries 0 [] e
      (fun j hj => by simpa using hfail j hj) (by simpa using hlast)]
  · rw [Provide, provideAux_success p backup k p.nRetries 0 [] hk
      (fun j hj => by simpa using hfail j hj) (by simpa using hsucc)]

/-- Witness for C4: with the default provider, eleven straight failures
surface the per-attempt error, and an immediate success returns the
`LastModified` value 42. -/
theorem provide_retries_then_surfaces_last_error_witness :
    (Provide (NewProvider false (.ok 42)) []
        (fun _ => ([], some "database is busy"))).1 = .error "database is busy"
      ∧ (Provide (NewProvider false (.ok 42)) []
          (fun _ => ([7,7], none))).1 = .ok 42 :=
  ⟨(provide_retries_then_surfaces_last_error false (.ok 42)
      (NewProvider false (.ok 42)) [] (fun _ => ([], some "database is busy"))).2.1
      "database is busy" (fun _ _ h => Option.noConfusion h) rfl,
   (provide_retries_then_surfaces_last_error false (.ok 42)
      (NewProvider false (.ok 42)) [] (fun _ => ([7,7], none))).2.2
      0 (Nat.zero_le _) (fun j hj => absurd hj (Nat.not_lt_zero j)) rfl⟩

/-- C5 counterexample: with the default provider, a first attempt that writes
one byte and then fails, followed by a successful attempt that writes the
complete two-byte image, makes `Provide` succeed while the output file holds
the failed attempt's byte followed by the image — not exactly one complete
backup image. -/
theorem provide_leftover_bytes_counterexample :
    (Provide (NewProvider false (.ok 7)) []
        (fun i => if i = 0 then ([1], some "busy") else ([2,3], none))).1 = .ok 7
      ∧ (Provide (NewProvider false (.ok 7)) []
          (fun i => if i = 0 then ([1], some "busy") else ([2,3], none))).2 = [1,2,3]
      ∧ ((fun i => if i = 0 then (([1] : List Nat), some "busy") else ([2,3], none))
          (1 : Nat)).1 = [2,3]
      ∧ ([1,2,3] : List Nat) ≠ [2,3] :=
  ⟨rfl, rfl, rfl, by decide⟩

/-- C5 (amended): the output file is truncated exactly once at the start of
the call, so the result does not depend on the path's prior content; on a
success at attempt `k`, the file holds the concatenation of the bytes written
by attempts `0, …, k`; hence it is exactly the one complete backup image of
the successful attempt when the failed attempts wrote no bytes. -/
theorem provide_truncates_once_and_accumulates_attempt_bytes
    (p : Provider) (prior : List Nat) (backup : BackupBehavior) (k : Nat)
    (hk : k ≤ p.nRetries) (hfail : ∀ j, j < k → (backup j).2 ≠ none)
    (hsucc : (backup k).2 = none) :
    Provide p prior backup = Provide p [] backup
      ∧ Provide p prior backup = (p.lastModified, writesFrom backup 0 k)
      ∧ ((∀ j, j < k → (backup j).1 = []) →
          (Provide p prior backup).2 = (backup k).1) := by
  have hmain : Provide p prior backup = (p.lastModified, writesFrom backup 0 k) := by
    rw [Provide, provideAux_success p backup k p.nRetries 0 [] hk
      (fun j hj => by simpa using hfail j hj) (by simpa using hsucc)]
    simp
  refine ⟨rfl, hmain, fun hempty => ?_⟩
  rw [hmain]
  have : ∀ k i, (∀ j, j < k → (backup (i+j)).1 = []) →
      writesFrom backup i k = (backup (i+k)).1 := by
    intro k
    induction k with
    | zero => intro i _; simp [writesFrom]
    | succ k ih =>
      intro i h
      have h0 : (backup i).1 = [] := by
        have := h 0 (Nat.succ_pos k)
        rwa [Nat.add_zero] at this
      have := ih (i+1) (fun j hj => by
        have h1 := h (j+1) (Nat.succ_lt_succ hj)
        rwa [show i + (j+1) = i + 1 + j by omega] at h1)
      simp [writesFrom, h0, this, show i + 1 + k = i + (k+1) by omega]
  simpa using this k 0 (fun j hj => by simpa using hempty j hj)

/-- Witness for C5 (amended): an immediately successful backup of bytes `[5]`
over prior content `[9,9]` leaves the file holding exactly `[5]`. -/
theorem provide_truncates_once_and_accumulates_attempt_bytes_witness :
    Provide (NewProvider false (.ok 3)) [9,9] (fun _ => ([5], none))
        = Provide (NewProvider false (.ok 3)) [] (fun _ => ([5], none))
      ∧ Provide (NewProvider false (.ok 3)) [9,9] (fun _ => ([5], none))
          = (.ok 3, writesFrom (fun _ => ([5], none)) 0 0)
      ∧ ((∀ j, j < 0 → ((fun (_ : Nat) => (([5] : List Nat), (none : Option String))) j).1 = []) →
          (Provide (NewProvider false (.ok 3)) [9,9] (fun _ => ([5], none))).2
            = ((fun (_ : Nat) => (([5] : List Nat), (none : Option String))) 0).1) :=
  provide_truncates_once_and_accumulates_attempt_bytes
    (NewProvider false (.ok 3)) [9,9] (fun _ => ([5], none)) 0
    (Nat.zero_le _) (fun j hj => absurd hj (Nat.not_lt_zero j)) rfl

/-! ## Helper lemmas: Servers membership -/

/-- On a sequence with no nil entries, the `Contains` scan answers whether the
scan finds a matching server. -/
theorem containsScan_eq_firstMatch (nodeID : String) :
    ∀ (s : Servers), none ∉ s →
      containsScan s nodeID = .ok (firstMatch s nodeID).isSome := by
  intro s
  induction s with
  | nil => intro _; simp [containsScan, firstMatch]
  | cons o rest ih =>
    intro h
    rcases o with _ | srv
    · exact absurd (List.mem_cons_self _ _) h
    · have hrest : none ∉ rest := fun hmem => h (List.mem_cons_of_mem _ hmem)
      by_cases hid : srv.ID = nodeID <;>
        simp [containsScan, firstMatch, hid, ih hrest]

/-- On a sequence with no nil entries, the `IsReadOnly` scan answers according
to the server the scan finds. -/
theorem isReadOnlyScan_eq_firstMatch (nodeID : String) :
    ∀ (s : Servers), none ∉ s →
      isReadOnlyScan s nodeID
        = .ok (match firstMatch s nodeID with
            | some srv => (decide (srv.Suffrage = "Nonvoter"), true)
            | none => (false, false)) := by
  intro s
  induction s with
  | nil => intro _; simp [isReadOnlyScan, firstMatch]
  | cons o rest ih =>
    intro h
    rcases o with _ | srv
    · exact absurd (List.mem_cons_self _ _) h
    · have hrest : none ∉ rest := fun hmem => h (List.mem_cons_of_mem _ hmem)
      by_cases hid : srv.ID = nodeID <;>
        simp [isReadOnlyScan, firstMatch, hid, ih hrest]

/-- The server a scan finds is a member of the sequence and its ID matches. -/
theorem firstMatch_spec (nodeID : String) :
    ∀ (s : Servers) (srv : Server), firstMatch s nodeID = some srv →
      some srv ∈ s ∧ srv.ID = nodeID := by
  intro s
  induction s with
  | nil => intro srv h; exact absurd h (by simp [firstMatch])
  | cons o rest ih =>
    intro srv h
    rcases o with _ | srv0
    · rcases ih srv (by simpa [firstMatch] using h) with ⟨hmem, hid⟩
      exact ⟨List.mem_cons_of_mem _ hmem, hid⟩
    · by_cases hid : srv0.ID = nodeID
      · rw [firstMatch, if_pos hid] at h
        cases h
        exact ⟨List.mem_cons_self _ _, hid⟩
      · rcases ih srv (by rwa [firstMatch, if_neg hid] at h) with ⟨hmem, hid2⟩
        exact ⟨List.mem_cons_of_mem _ hmem, hid2⟩

/-- C7: on any sequence without nil entries, `Contains` and `IsReadOnly`
answer false at the empty id; whenever `IsReadOnly` returns, `found` is true
exactly when the id is nonempty and the scan finds a matching server (a
member of the sequence whose ID is the queried id), `ro` is true exactly when
`found` is true and that matching server's suffrage is Nonvoter, and whenever
`found` is reported, `Contains` answers true. -/
theorem isReadOnly_found_contains (s : Servers) (nodeID : String)
    (h : none ∉ s) :
    Contains s "" = .ok false
      ∧ IsReadOnly s "" = .ok (false, false)
      ∧ ∀ ro found, IsReadOnly s nodeID = .ok (ro, found) →
          ((found = true) ↔ (nodeID ≠ "" ∧ ∃ srv, firstMatch s nodeID = some srv))
        ∧ (∀ srv, firstMatch s nodeID = some srv → some srv ∈ s ∧ srv.ID = nodeID)
        ∧ ((ro = true) ↔ (found = true ∧ ∃ srv, firstMatch s nodeID = some srv
            ∧ srv.Suffrage = "Nonvoter"))
        ∧ (found = true → Contains s nodeID = .ok true) := by
  refine ⟨by simp [Contains], by simp [IsReadOnly], ?_⟩
  intro ro found hok
  by_cases hid : nodeID = ""
  · subst hid
    rw [IsReadOnly, if_pos rfl] at hok
    have hro : false = ro ∧ false = found := by
      have := Except.ok.inj hok
      exact ⟨congrArg Prod.fst this, congrArg Prod.snd this⟩
    obtain ⟨hro1, hro2⟩ := hro
    subst hro1; subst hro2
    exact ⟨by simp, firstMatch_spec "" s, by simp, by simp⟩
  · rw [IsReadOnly, if_neg hid, isReadOnlyScan_eq_firstMatch nodeID s h] at hok
    rcases hfm : firstMatch s nodeID with _ | srv
    · rw [hfm] at hok
      have hro := Except.ok.inj hok
      have hro1 : false = ro := congrArg Prod.fst hro
      have hro2 : false = found := congrArg Prod.snd hro
      subst hro1; subst hro2
      refine ⟨by simp, fun srv2 hsrv2 => absurd hsrv2 (by simp), by simp, by simp⟩
    · rw [hfm] at hok
      have hro := Except.ok.inj hok
      have hro1 : decide (srv.Suffrage = "Nonvoter") = ro := congrArg Prod.fst hro
      have hro2 : true = found := congrArg Prod.snd hro
      subst hro1; subst hro2
      refine ⟨by simp [hid],
        fun srv2 hsrv2 =>
          (Option.some.inj hsrv2) ▸ firstMatch_spec nodeID s srv hfm, ?_, ?_⟩
      · constructor
        · intro hdec
          exact ⟨rfl, srv, rfl, of_decide_eq_true hdec⟩
        · rintro ⟨_, srv2, hsrv2, hsuff⟩
          cases Option.some.inj hsrv2
          exact decide_eq_true hsuff
      · intro _
        rw [Contains, if_neg hid, containsScan_eq_firstMatch nodeID s h, hfm]
        rfl

/-- Witness for C7 at the test's concrete sequence: a single Nonvoter entry. -/
theorem isReadOnly_found_contains_witness :
    Contains [some ⟨"node1", "localhost:4002", "Nonvoter"⟩] "" = .ok false
      ∧ IsReadOnly [some ⟨"node1", "localhost:4002", "Nonvoter"⟩] ""
          = .ok (false, false) :=
  ⟨(isReadOnly_found_contains
      [some ⟨"node1", "localhost:4002", "Nonvoter"⟩] "node1" (by decide)).1,
   (isReadOnly_found_contains
      [some ⟨"node1", "localhost:4002", "Nonvoter"⟩] "node1" (by decide)).2.1⟩

/-- C10: `Contains` and `IsReadOnly` answer the empty id before the scan runs,
so every sequence — including one holding a nil entry, which the scan would
dereference — yields false (and found=false) without a fault; by contrast the
underlying scan does fault on a nil entry. -/
theorem empty_id_answered_without_scanning :
    (∀ (s : Servers), Contains s "" = .ok false
        ∧ IsReadOnly s "" = .ok (false, false))
      ∧ containsScan [none] "x" = .error "nil pointer dereference"
      ∧ isReadOnlyScan [none] "x" = .error "nil pointer dereference" :=
  ⟨fun s => ⟨by simp [Contains], by simp [IsReadOnly]⟩, rfl, rfl⟩

/-- C8: canonicalizing any `Servers` sequence yields a permutation of it that
is ascending by ID under the lexicographic order on the opaque ID string; in
particular the test's IDs `["3","1","2"]` canonicalize to `["1","2","3"]`. -/
theorem canonicalize_sorts_ascending_by_id :
    (∀ l, List.Sorted serverLE (canonicalize l) ∧ (canonicalize l).Perm l)
      ∧ (∀ a b : Server, serverLE a b ↔ a.ID ≤ b.ID)
      ∧ (canonicalize [⟨"3", "localhost:4003", "Voter"⟩,
            ⟨"1", "localhost:4001", "Voter"⟩,
            ⟨"2", "localhost:4002", "Nonvoter"⟩]).map Server.ID
          = ["1", "2", "3"] := by
  refine ⟨fun l => ⟨List.sorted_insertionSort serverLE l,
    List.perm_insertionSort serverLE l⟩, fun a b => Iff.rfl, ?_⟩
  simp [canonicalize, List.insertionSort, List.orderedInsert, serverLE]
  decide

/-- C9: opening a sink whose work directory exists and whose generation paths
are addressable returns no error and creates an empty staging file under the
work directory, creating no further directory. -/
theorem sink_open_creates_staging (s : Sink) (fs : FS)
    (hwork : s.workDir ∈ fs.dirs) (h1 : s.workDir ≠ "")
    (h2 : s.currGenDir ≠ "") (h3 : s.nextGenDir ≠ "") :
    ∃ fs2, SinkOpen s fs = .ok fs2
      ∧ (stagingPath s, ([] : List Nat)) ∈ fs2.files
      ∧ fs2.dirs = fs.dirs := by
  refine ⟨{ fs with files := (stagingPath s, []) :: fs.files }, ?_,
    List.mem_cons_self _ _, rfl⟩
  simp [SinkOpen, h1, h2, h3, hwork]

/-- Witness for C9 at the test's layout: `work/` created under a temp root,
`curr` and `next` merely addressable. -/
theorem sink_open_creates_staging_witness :
    ∃ fs2, SinkOpen (NewSink "work" "curr" "next" ⟨[]⟩) ⟨["work"], []⟩ = .ok fs2
      ∧ (stagingPath (NewSink "work" "curr" "next" ⟨[]⟩), ([] : List Nat)) ∈ fs2.files
      ∧ fs2.dirs = (⟨["work"], []⟩ : FS).dirs :=
  sink_open_creates_staging (NewSink "work" "curr" "next" ⟨[]⟩) ⟨["work"], []⟩
    (by decide) (by decide) (by decide) (by decide)

end Rqlite
